import Mathlib

/-!
Shallow embedding of the core of `py_proxy.py` (an HTTP/HTTPS forwarding
proxy with TLS ClientHello fragmentation), together with theorems settling
the specification claims about it.

Bytes are modelled as `Nat` (each < 256 on real inputs), byte strings as
`List Nat`, and Python `str` values as `List Char`.  Stateful methods of
`ProxyServer` become pure functions over explicit state.
-/

namespace PyProxy

/-- `self.bufsize = 65536` in `ProxyServer.__init__`. -/
def bufsize : Nat := 65536

/-- Big-endian 16-bit value of two bytes: `int.from_bytes(head[3:5], "big")`. -/
def be16 (a b : Nat) : Nat := a * 256 + b

/-- ASCII bytes of a string literal (used for the fixed HTTP replies). -/
def asciiBytes (s : String) : List Nat := s.toList.map Char.toNat

/-- Python `str.endswith`: `l` ends with `s`.  `l.drop (l.length - s.length)`
is the final `s.length` characters of `l` (all of `l` when `s` is longer,
in which case the comparison fails on length). -/
def listEndsWith (l s : List Char) : Bool := l.drop (l.length - s.length) == s

/-- Python `random.randint(a, b)` (inclusive bounds), with the randomness
supplied externally as `r`. -/
def randint (a b r : Nat) : Nat := a + r % (b - a + 1)

/-- Fuel-indexed shell-glob matcher: `*` matches any run of characters and
`?` any single character, other characters match literally.  This is the
fragment of `fnmatch.fnmatch` exercised by the proxy's filter patterns
(POSIX `normcase` is the identity; `[seq]` classes are not modelled — no
claim exercises them).  The fuel in `fnmatchMatch` is always sufficient. -/
def globMatch : Nat → List Char → List Char → Bool
  | 0, _, _ => false
  | _ + 1, [], s => s.isEmpty
  | f + 1, p :: ps, s =>
    if p = '*' then
      match s with
      | [] => globMatch f ps []
      | _ :: cs => globMatch f ps s || globMatch f (p :: ps) cs
    else
      match s with
      | [] => false
      | c :: cs => (p = '?' || p = c) && globMatch f ps cs

/-- `fnmatch.fnmatch(s, pat)` as used by the filter lookups. -/
def fnmatchMatch (pat s : List Char) : Bool :=
  globMatch ((pat.length + s.length) * 2 + 1) pat s

/-!  ## Filter store

`ProxyServer` keeps `self.blocked : list[str]`, `self.blocked_bytes :
list[bytes]`, `self.whitelist : set[str]`, `self.whitelist_bytes :
set[bytes]`.  The sets are modelled as lists (only membership and
insertion are used). -/

structure FilterState where
  whitelist : List (List Char)
  whitelist_bytes : List (List Nat)
  blocked : List (List Char)
  blocked_bytes : List (List Nat)
deriving DecidableEq, Repr

/-- One iteration of the wildcard loop shared by `is_whitelisted` and
`is_blacklisted`: for a pattern starting with `"*."` the code tests
`domain.endswith(pattern[2:]) or domain == pattern[2:]`; for any other
pattern containing `*` it calls `fnmatch`; other patterns contribute
nothing to the loop. -/
def wildcardMatch (pat domain : List Char) : Bool :=
  if pat.take 2 = ['*', '.'] then
    listEndsWith domain (pat.drop 2) || domain == pat.drop 2
  else if pat.contains '*' then
    fnmatchMatch pat domain
  else false

/-- `ProxyServer.is_whitelisted(domain, domain_bytes)`.  `domain_bytes` is
a Python optional `bytes`; `[]` models both `None` and `b""` (both falsy,
treated identically by the guard `if domain_bytes and ...`). -/
def is_whitelisted (st : FilterState) (domain : List Char)
    (domain_bytes : List Nat) : Bool :=
  if st.whitelist.isEmpty && st.whitelist_bytes.isEmpty then false
  else if st.whitelist.contains domain then true
  else if !domain_bytes.isEmpty && st.whitelist_bytes.contains domain_bytes then true
  else st.whitelist.any fun w => wildcardMatch w domain

/-- `ProxyServer.is_blacklisted(domain, domain_bytes)`: whitelist takes
precedence, then exact bytes, then exact string, then the wildcard loop
over `blocked`. -/
def is_blacklisted (st : FilterState) (domain : List Char)
    (domain_bytes : List Nat) : Bool :=
  if is_whitelisted st domain domain_bytes then false
  else if !domain_bytes.isEmpty && st.blocked_bytes.contains domain_bytes then true
  else if st.blocked.contains domain then true
  else st.blocked.any fun b => wildcardMatch b domain

set_option linter.unusedVariables false in
/-- `ProxyServer._add_to_blacklist(host, host_bytes)`.  The in-memory
append happens first; the file append then runs under the blacklist lock
with any `OSError`/`IOError` swallowed (logged at verbose), so the
returned state does not depend on `fileOk`, which records whether that
append succeeded. -/
def add_to_blacklist (st : FilterState) (host : List Char)
    (host_bytes : List Nat) (fileOk : Bool) : FilterState :=
  if is_blacklisted st host host_bytes then st
  else
    { st with
      blocked := st.blocked ++ [host]
      blocked_bytes := st.blocked_bytes ++ [host_bytes] }

/-!  ## Record fragmenter -/

/-- The local `frame` helper of `fragment_data`: synthetic record header
`b"\x16\x03\x04" + len(chunk).to_bytes(2, "big") + chunk` (chunk lengths
are at most 65535, the maximum TLS record length, so two bytes suffice). -/
def frame (chunk : List Nat) : List Nat :=
  0x16 :: 0x03 :: 0x04 :: chunk.length / 256 :: chunk.length % 256 :: chunk

/-- The Python local `host_end = body.find(b"\x00")`: index of the first
zero byte.  Python returns `-1` when absent while `List.findIdx` returns
`body.length`, so Python's guard `0 <= host_end < len(body)` becomes
`nulCut body < body.length` (false in the absent case under both
encodings). -/
def nulCut (body : List Nat) : Nat := body.findIdx (· == 0)

/-- The Python local `cut1 = max(1, len(body) // 2)` of the small-body
branch. -/
def halfCut (body : List Nat) : Nat := max 1 (body.length / 2)

/-- The Python local `c1 = min(random.randint(32, 128), len(body))` of the
large-body branch. -/
def randCut1 (body : List Nat) (r1 : Nat) : Nat :=
  min (randint 32 128 r1) body.length

/-- The Python local `c2 = min(c1 + random.randint(128, 512), len(body))`
of the large-body branch. -/
def randCut2 (body : List Nat) (r1 r2 : Nat) : Nat :=
  min (randCut1 body r1 + randint 128 512 r2) body.length

/-- The chunking policy of `fragment_data` applied to the record body
(`body[a:b]` is `(body.drop a).take (b - a)`).  `r1`, `r2` supply the two
`random.randint` draws of the third branch. -/
def fragmentChunks (body : List Nat) (r1 r2 : Nat) : List (List Nat) :=
  if nulCut body < body.length then
    [body.take (nulCut body + 1), body.drop (nulCut body + 1)]
  else if body.length ≤ 512 then
    [body.take (halfCut body), body.drop (halfCut body)]
  else
    [body.take (randCut1 body r1),
     (body.drop (randCut1 body r1)).take (randCut2 body r1 r2 - randCut1 body r1),
     body.drop (randCut2 body r1 r2)]

/-- Error outcomes of `fragment_data` (each raised as a
`FragmentationException`). -/
inductive FragError
  /-- `IncompleteReadError` on the body read. -/
  | incompleteBody
  /-- `OSError`/`ConnectionError` writing the non-handshake passthrough. -/
  | passthroughWriteFail
  /-- `OSError`/`ConnectionError` writing the synthetic records. -/
  | sendFail
deriving DecidableEq, Repr

/-- Observable outcome of one `fragment_data` call:
`counterInc` is the increment applied to `self.blocked_connections` (the
fragmented-connections counter), `records` the synthetic records written
to the origin in order, `written` all origin bytes, and `result` the
return value (`.ok b` for `return b`, `.error e` for a raised
`FragmentationException`). -/
structure FragOutcome where
  counterInc : Nat
  records : List (List Nat)
  written : List Nat
  result : Except FragError Bool
deriving Repr

/-- The record body `fragment_data` reads once the header announced a
handshake record: `readexactly(rec_len)` takes exactly
`rec_len = int.from_bytes(head[3:5], "big")` bytes from the stream
(defined whenever that many bytes are available). -/
def fragBody (input : List Nat) : List Nat :=
  (input.drop 5).take (be16 (input.getD 3 0) (input.getD 4 0))

/-- The synthetic records the send loop writes: one `frame` per non-empty
chunk (`for chunk in chunks: if chunk: writer.write(frame(chunk))`), in
chunk order. -/
def fragRecords (input : List Nat) (r1 r2 : Nat) : List (List Nat) :=
  ((fragmentChunks (fragBody input) r1 r2).filter fun c => !c.isEmpty).map frame

/-- `ProxyServer.fragment_data(reader, writer)` over a pure model of the
streams: `input` is the byte sequence the client has available (followed
by end-of-stream), so `readexactly(n)` succeeds iff `n` bytes remain and
`read(bufsize)` returns everything available up to `bufsize`.  `writeOk`
models the origin socket: when false, every write attempt raises, so
nothing is recorded as written.  Timeouts are subsumed by the
short-stream cases. -/
def fragment_data (input : List Nat) (r1 r2 : Nat) (writeOk : Bool) : FragOutcome :=
  if input.length < 5 then
    -- readexactly(5) raises IncompleteReadError: `return False`, no write
    ⟨0, [], [], .ok false⟩
  else if input.getD 0 0 ≠ 0x16 then
    -- not a TLS handshake: write the 5 header bytes plus one read() through
    if writeOk then
      ⟨0, [], input.take 5 ++ (input.drop 5).take bufsize, .ok false⟩
    else ⟨0, [], [], .error .passthroughWriteFail⟩
  else if input.length - 5 < be16 (input.getD 3 0) (input.getD 4 0) then
    ⟨0, [], [], .error .incompleteBody⟩
  else
    -- full body read; `self.blocked_connections += 1` happens here,
    -- before any synthetic record is written
    if (fragRecords input r1 r2).isEmpty then ⟨1, [], [], .ok true⟩
    else if writeOk then
      ⟨1, fragRecords input r1 r2, (fragRecords input r1 r2).flatten, .ok true⟩
    else ⟨1, [], [], .error .sendFail⟩

/-!  ## Pipe -/

/-- `ProxyServer.pipe` restricted to one direction under nominal
conditions (no shutdown, live writer, no read timeout or socket error):
the loop reads a chunk, stops on an empty read (end-of-stream), and
otherwise writes the whole chunk before reading again.  `reads` is the
sequence of values successive `reader.read(bufsize)` calls return; the
result is the byte sequence delivered to the writer. -/
def pipeDeliver : List (List Nat) → List Nat
  | [] => []
  | r :: rs => if r.isEmpty then [] else r ++ pipeDeliver rs

/-!  ## Connection handler, dial phase -/

/-- `b"HTTP/1.1 200 Connection Established\r\n\r\n"`. -/
def http200 : List Nat := asciiBytes "HTTP/1.1 200 Connection Established\r\n\r\n"

/-- The reply the spec prescribes for a failed HTTP upstream dial:
`HTTP/1.1 502 Bad Gateway\r\n\r\n` (this byte string appears nowhere in
the source). -/
def http502 : List Nat := asciiBytes "HTTP/1.1 502 Bad Gateway\r\n\r\n"

/-- What the handler itself writes before the piping phase, plus the
failed-connections increment. -/
structure HandlerOutcome where
  clientOut : List Nat
  originOut : List Nat
  failedInc : Nat
deriving DecidableEq, Repr

/-- `ProxyServer.handle_connection` between request parsing and piping.
For `CONNECT` the code writes the 200 reply, then dials the origin with a
5 s timeout; a dial failure increments `failed_connections` and raises a
`ConnectionException`, which the handler catches, logs and closes on — no
further client write occurs.  For other methods the code dials first and
on success forwards the already-read request bytes to the origin; a dial
failure likewise increments the counter, raises, and closes with nothing
written to the client.  (On the successful CONNECT path the origin bytes
written before piping are those of `fragment_data`, modelled separately;
the piping phase itself is `pipeDeliver`.) -/
def dial_phase (isConnect : Bool) (httpData : List Nat) (dialOk : Bool) :
    HandlerOutcome :=
  if isConnect then
    if dialOk then ⟨http200, [], 0⟩
    else ⟨http200, [], 1⟩
  else
    if dialOk then ⟨[], httpData, 0⟩
    else ⟨[], [], 1⟩

/-!  ## Spec-side comparison definition and concrete example states -/

/-- The subdomain-wildcard semantics in the spec's own words (§3), for
comparison with the code's `wildcardMatch`: `*.base` "matches `base` and
any `x.base`, `y.x.base`" — i.e. the host is the base itself or ends in
a dot followed by the base. -/
def spec_subdomain_match (base host : List Char) : Bool :=
  host == base || listEndsWith host ('.' :: base)

/-- A filter state whose whitelist holds the exact host `w.com`. -/
def exampleWhitelistState : FilterState :=
  ⟨["w.com".toList], [], [], []⟩

/-- A filter state whose whitelist holds the single pattern
`*.example.com`. -/
def exampleWildcardState : FilterState :=
  ⟨["*.example.com".toList], [], [], []⟩

/-- The empty filter state (no patterns loaded). -/
def emptyFilterState : FilterState := ⟨[], [], [], []⟩

/-!  ## Helper lemmas -/

/-- Dropping the 5 header bytes of a synthetic record recovers its
payload chunk. -/
lemma frame_drop_five (c : List Nat) : (frame c).drop 5 = c := rfl

/-- Removing the empty chunks does not change the concatenation. -/
lemma flatten_filter_nonEmpty (l : List (List Nat)) :
    (l.filter fun c => !c.isEmpty).flatten = l.flatten := by
  induction l with
  | nil => rfl
  | cons c cs ih =>
    by_cases hc : c.isEmpty
    · have hcnil : c = [] := List.isEmpty_iff.mp hc
      subst hcnil
      simpa [List.filter_cons] using ih
    · simp [List.filter_cons, hc, ih]

/-- The random cuts of the large-body branch are ordered. -/
lemma randCut1_le_randCut2 (body : List Nat) (r1 r2 : Nat) :
    randCut1 body r1 ≤ randCut2 body r1 r2 := by
  unfold randCut1 randCut2
  exact le_min (Nat.le_add_right _ _) (min_le_right _ _)

/-- Every branch of the chunking policy partitions the body: the chunks
concatenate back to it. -/
lemma fragmentChunks_flatten (body : List Nat) (r1 r2 : Nat) :
    (fragmentChunks body r1 r2).flatten = body := by
  unfold fragmentChunks
  split_ifs with h1 h2
  · simp [List.take_append_drop]
  · simp [List.take_append_drop]
  · have hle : randCut1 body r1 ≤ randCut2 body r1 r2 :=
      randCut1_le_randCut2 body r1 r2
    have hdrop : body.drop (randCut2 body r1 r2)
        = (body.drop (randCut1 body r1)).drop (randCut2 body r1 r2 - randCut1 body r1) := by
      rw [List.drop_drop]
      congr 1
      omega
    simp only [List.flatten_cons, List.flatten_nil, List.append_nil]
    rw [hdrop, List.take_append_drop, List.take_append_drop]

/-- The payloads of the written records concatenate to the body, for any
body and random draws. -/
lemma fragRecords_payload (input : List Nat) (r1 r2 : Nat) :
    ((fragRecords input r1 r2).map fun r => r.drop 5).flatten = fragBody input := by
  unfold fragRecords
  rw [List.map_map]
  have hmap : ((fun r => List.drop 5 r) ∘ frame) = id := by
    funext c
    exact frame_drop_five c
  rw [hmap, List.map_id, flatten_filter_nonEmpty, fragmentChunks_flatten]

/-- Python `endswith` in terms of suffix decomposition. -/
lemma listEndsWith_iff (l s : List Char) :
    listEndsWith l s = true ↔ ∃ pre, l = pre ++ s := by
  unfold listEndsWith
  rw [beq_iff_eq]
  constructor
  · intro h
    refine ⟨l.take (l.length - s.length), ?_⟩
    conv_lhs => rw [← List.take_append_drop (l.length - s.length) l]
    rw [h]
  · rintro ⟨pre, rfl⟩
    rw [List.length_append, Nat.add_sub_cancel, List.drop_left]

/-- `is_whitelisted` reads only the whitelist fields, so inserting into
the blocked lists does not change it. -/
lemma is_whitelisted_insert_blocked (st : FilterState) (x : List Char)
    (xb : List Nat) (d : List Char) (db : List Nat) :
    is_whitelisted
      { st with blocked := st.blocked ++ [x], blocked_bytes := st.blocked_bytes ++ [xb] }
      d db = is_whitelisted st d db := rfl

/-- After appending a host to the blocked lists, a non-whitelisted host
looks up as blacklisted. -/
lemma blacklisted_after_insert (st : FilterState) (h : List Char)
    (hb : List Nat) (hw : is_whitelisted st h hb = false) :
    is_blacklisted
      { st with blocked := st.blocked ++ [h], blocked_bytes := st.blocked_bytes ++ [hb] }
      h hb = true := by
  rw [is_blacklisted, is_whitelisted_insert_blocked, hw]
  by_cases hbe : hb.isEmpty
  · simp [hbe]
  · simp [hbe]

/-- A host that already looks up as blacklisted is not inserted again. -/
lemma add_to_blacklist_of_blacklisted (st : FilterState) (h : List Char)
    (hb : List Nat) (fOk : Bool) (hbl : is_blacklisted st h hb = true) :
    add_to_blacklist st h hb fOk = st := by
  unfold add_to_blacklist
  rw [if_pos hbl]

/-- A host that does not look up as blacklisted is appended to both
blocked lists. -/
lemma add_to_blacklist_of_not_blacklisted (st : FilterState) (h : List Char)
    (hb : List Nat) (fOk : Bool) (hbl : ¬ is_blacklisted st h hb = true) :
    add_to_blacklist st h hb fOk
      = { st with blocked := st.blocked ++ [h], blocked_bytes := st.blocked_bytes ++ [hb] } := by
  unfold add_to_blacklist
  rw [if_neg hbl]

/-- Once the header announces a handshake record and the full body is
available, `fragment_data` reduces to the send phase over
`fragRecords`. -/
lemma fragment_data_run (input : List Nat) (r1 r2 : Nat) (wOk : Bool)
    (h5 : 5 ≤ input.length) (hty : input.getD 0 0 = 0x16)
    (hlen : be16 (input.getD 3 0) (input.getD 4 0) ≤ input.length - 5) :
    fragment_data input r1 r2 wOk =
      if (fragRecords input r1 r2).isEmpty then ⟨1, [], [], .ok true⟩
      else if wOk then
        ⟨1, fragRecords input r1 r2, (fragRecords input r1 r2).flatten, .ok true⟩
      else ⟨1, [], [], .error .sendFail⟩ := by
  unfold fragment_data
  rw [if_neg (by omega), if_neg (by omega), if_neg (by omega)]

/-!  ## Claim theorems -/

/-- Claim C1: for every ClientHello body read by the fragmenter (a
Handshake record, byte 0 = `0x16`, with body of the length given by the
header), concatenating the payloads of the synthetic records it writes to
the origin, in write order, yields the original body byte-for-byte, in
every branch of the chunking policy (`r1`, `r2` range over all random
draws). -/
theorem fragment_preserves_body (input : List Nat) (r1 r2 : Nat)
    (h5 : 5 ≤ input.length) (hty : input.getD 0 0 = 0x16)
    (hlen : be16 (input.getD 3 0) (input.getD 4 0) ≤ input.length - 5) :
    ((fragment_data input r1 r2 true).records.map fun r => r.drop 5).flatten
      = fragBody input := by
  unfold fragment_data
  rw [if_neg (by omega), if_neg (by omega), if_neg (by omega)]
  by_cases hrec : (fragRecords input r1 r2).isEmpty
  · rw [if_pos hrec]
    have h1 := fragRecords_payload input r1 r2
    rw [List.isEmpty_iff.mp hrec] at h1
    simpa using h1
  · rw [if_neg hrec, if_pos rfl]
    exact fragRecords_payload input r1 r2

/-- Witness for C1 at a concrete 2-byte-body handshake record. -/
theorem fragment_preserves_body_witness :
    5 ≤ ([0x16, 3, 1, 0, 2, 7, 8] : List Nat).length ∧
    ((fragment_data [0x16, 3, 1, 0, 2, 7, 8] 0 0 true).records.map fun r => r.drop 5).flatten
      = fragBody [0x16, 3, 1, 0, 2, 7, 8] :=
  ⟨by decide,
   fragment_preserves_body [0x16, 3, 1, 0, 2, 7, 8] 0 0 (by decide) (by decide) (by decide)⟩

/-- Claim C10: the fragmented-connections counter
(`self.blocked_connections`) is incremented exactly when a complete
Handshake record body has been read (byte 0 = `0x16` and the announced
number of body bytes available), independently of the body contents, the
random draws, and whether the subsequent writes succeed — so it counts
fragmentation attempts and stays incremented when the body is empty or a
write raises a fragmentation error. -/
theorem fragmented_counter_iff_full_body (input : List Nat) (r1 r2 : Nat) (wOk : Bool) :
    (fragment_data input r1 r2 wOk).counterInc =
      if 5 ≤ input.length ∧ input.getD 0 0 = 0x16 ∧
          be16 (input.getD 3 0) (input.getD 4 0) ≤ input.length - 5
      then 1 else 0 := by
  unfold fragment_data
  split_ifs with h1 h2 h3 h4 h5 <;> first | rfl | omega

/-- Claim C2 counterexample: for the one-byte body `[0x00]` (whose first
`0x00` is its final byte, so `z + 1 = len(body)`), the fragmenter writes
only the first chunk's record — the empty second chunk is skipped by the
`if chunk:` guard — and not the two framed chunks the claim requires. -/
theorem nul_split_counterexample :
    (fragment_data [0x16, 0x03, 0x01, 0x00, 0x01, 0x00] 0 0 true).written
        = frame [0x00] ∧
    (fragment_data [0x16, 0x03, 0x01, 0x00, 0x01, 0x00] 0 0 true).written
        ≠ frame [0x00] ++ frame [] := by
  constructor
  · decide
  · decide

set_option linter.unusedVariables false in
/-- Claim C2 (amended): for every Handshake record body containing a
`0x00` byte, with `z` the index of the first one, the fragmenter splits
the body into the chunks `body[0:z+1]` and `body[z+1:]` and writes each
NON-EMPTY chunk wrapped in the synthetic header `0x16 0x03 0x04
<len:u16-be>` (the `frame` function); when the `0x00` is the final body
byte the empty second chunk is skipped, so only the first record is
written. -/
theorem nul_split (v1 v2 : Nat) (body : List Nat) (r1 r2 : Nat)
    (hlen : body.length < 65536)
    (hz : nulCut body < body.length) :
    (fragment_data
        (0x16 :: v1 :: v2 :: body.length / 256 :: body.length % 256 :: body)
        r1 r2 true).written
      = frame (body.take (nulCut body + 1)) ++
        (if (body.drop (nulCut body + 1)).isEmpty then []
         else frame (body.drop (nulCut body + 1))) := by
  have hbe : be16 (body.length / 256) (body.length % 256) = body.length := by
    unfold be16; omega
  have h5 : 5 ≤ (0x16 :: v1 :: v2 :: body.length / 256 :: body.length % 256 :: body).length := by
    simp [List.length_cons]
  have hty : (0x16 :: v1 :: v2 :: body.length / 256 :: body.length % 256 :: body).getD 0 0
      = 0x16 := rfl
  have hrl : be16
        ((0x16 :: v1 :: v2 :: body.length / 256 :: body.length % 256 :: body).getD 3 0)
        ((0x16 :: v1 :: v2 :: body.length / 256 :: body.length % 256 :: body).getD 4 0)
      ≤ (0x16 :: v1 :: v2 :: body.length / 256 :: body.length % 256 :: body).length - 5 := by
    show be16 (body.length / 256) (body.length % 256) ≤ _
    rw [hbe]
    simp [List.length_cons]
  have hfb : fragBody (0x16 :: v1 :: v2 :: body.length / 256 :: body.length % 256 :: body)
      = body := by
    show body.take (be16 (body.length / 256) (body.length % 256)) = body
    rw [hbe, List.take_length]
  have hbne : body ≠ [] := by
    intro hnil
    rw [hnil] at hz
    simp [nulCut] at hz
  have hc1 : (body.take (nulCut body + 1)).isEmpty = false := by
    simp only [List.isEmpty_eq_false, ne_eq, List.take_eq_nil_iff]
    simp [hbne]
  rw [fragment_data_run _ r1 r2 true h5 hty hrl]
  by_cases hc2 : (body.drop (nulCut body + 1)).isEmpty
  · simp [fragRecords, hfb, fragmentChunks, hz, List.filter_cons, hc1, hc2]
  · simp [fragRecords, hfb, fragmentChunks, hz, List.filter_cons, hc1, hc2]

/-- Witness for C2 (amended) at the body `[0x00, 7]`: the first `0x00`
sits at index 0 and the split writes two framed chunks. -/
theorem nul_split_witness :
    nulCut [0x00, 7] < ([0x00, 7] : List Nat).length ∧
    (fragment_data [0x16, 3, 1, 0, 2, 0x00, 7] 0 0 true).written
      = frame [0x00] ++ frame [7] :=
  ⟨by decide, nul_split 3 1 [0x00, 7] 0 0 (by decide) (by decide)⟩

/-- Claim C3 counterexample: on the header `16 03 01 00 00` (Handshake,
length 0) the fragmenter writes nothing at all to the origin — in
particular not the 5 header bytes the claim requires. -/
theorem zero_length_record_counterexample :
    (fragment_data [0x16, 0x03, 0x01, 0x00, 0x00] 0 0 true).written = [] ∧
    (fragment_data [0x16, 0x03, 0x01, 0x00, 0x00] 0 0 true).written
        ≠ [0x16, 0x03, 0x01, 0x00, 0x00] := by
  constructor
  · decide
  · decide

/-- Claim C3 (amended): when the fragmenter reads a Handshake record
header (byte 0 = `0x16`) whose length field is 0, it consumes the header
and writes NOTHING to the origin (both chunks of the empty body are empty
and skipped); it still returns `fragmented = true` and increments the
fragmented-connections counter, for any write behaviour. -/
theorem zero_length_record (input : List Nat) (r1 r2 : Nat) (wOk : Bool)
    (h5 : 5 ≤ input.length) (hty : input.getD 0 0 = 0x16)
    (h3 : input.getD 3 0 = 0) (h4 : input.getD 4 0 = 0) :
    (fragment_data input r1 r2 wOk).written = [] ∧
    (fragment_data input r1 r2 wOk).result = Except.ok true ∧
    (fragment_data input r1 r2 wOk).counterInc = 1 := by
  have hlen : be16 (input.getD 3 0) (input.getD 4 0) ≤ input.length - 5 := by
    rw [h3, h4]
    unfold be16
    omega
  have hfb : fragBody input = [] := by
    unfold fragBody
    rw [h3, h4]
    rfl
  have hrecs : fragRecords input r1 r2 = [] := by
    unfold fragRecords
    rw [hfb]
    simp [fragmentChunks, nulCut, halfCut]
  rw [fragment_data_run input r1 r2 wOk h5 hty hlen, hrecs]
  exact ⟨rfl, rfl, rfl⟩

/-- Witness for C3 (amended) at the concrete header `16 03 01 00 00` with
failing writes (the outcome is unchanged since nothing is written). -/
theorem zero_length_record_witness :
    (fragment_data [0x16, 0x03, 0x01, 0x00, 0x00] 0 0 false).written = [] ∧
    (fragment_data [0x16, 0x03, 0x01, 0x00, 0x00] 0 0 false).result = Except.ok true ∧
    (fragment_data [0x16, 0x03, 0x01, 0x00, 0x00] 0 0 false).counterInc = 1 :=
  zero_length_record [0x16, 0x03, 0x01, 0x00, 0x00] 0 0 false
    (by decide) (by decide) (by decide) (by decide)

/-- Claim C4: for one direction of one connection, the pipe delivers to
the writing peer exactly the bytes obtained from the reader, in read
order, each byte exactly once, for every sequence of non-empty reads
until end-of-stream. -/
theorem pipe_preserves_stream (reads : List (List Nat))
    (h : ∀ r ∈ reads, r ≠ []) : pipeDeliver reads = reads.flatten := by
  induction reads with
  | nil => rfl
  | cons r rs ih =>
    have hr : r ≠ [] := h r (by simp)
    have hrs : ∀ x ∈ rs, x ≠ [] := fun x hx => h x (by simp [hx])
    show (if r.isEmpty then [] else r ++ pipeDeliver rs) = (r :: rs).flatten
    rw [if_neg (by simp [hr]), List.flatten_cons, ih hrs]

/-- Witness for C4 on the concrete read sequence `[[1,2],[3]]`. -/
theorem pipe_preserves_stream_witness :
    (∀ r ∈ ([[1, 2], [3]] : List (List Nat)), r ≠ []) ∧
    pipeDeliver [[1, 2], [3]] = ([[1, 2], [3]] : List (List Nat)).flatten :=
  ⟨by decide, pipe_preserves_stream [[1, 2], [3]] (by decide)⟩

/-- Claim C5 counterexample: on a failed upstream dial for a plain HTTP
request, the handler writes nothing to the client — not the
`HTTP/1.1 502 Bad Gateway` reply the claim requires (that byte string
appears nowhere in the source). -/
theorem http_dial_fail_counterexample :
    (dial_phase false (asciiBytes "GET / HTTP/1.1\r\nHost: example.org\r\n\r\n")
        false).clientOut = [] ∧
    (dial_phase false (asciiBytes "GET / HTTP/1.1\r\nHost: example.org\r\n\r\n")
        false).clientOut ≠ http502 := by
  constructor
  · decide
  · decide

/-- Claim C5 (amended): for every HTTP (non-CONNECT) request whose
upstream dial fails, the handler writes NOTHING to the client — it
increments the failed-connections counter, raises a connection error and
closes the client connection silently. -/
theorem http_dial_fail_silent_close (httpData : List Nat) :
    (dial_phase false httpData false).clientOut = [] ∧
    (dial_phase false httpData false).failedInc = 1 :=
  ⟨rfl, rfl⟩

/-- Claim C6: whitelist strictly dominates blacklist — for every filter
state and host, a whitelisted host is never blacklisted (both lookups
being pure over the state). -/
theorem whitelist_dominates_blacklist (st : FilterState) (d : List Char)
    (db : List Nat) (h : is_whitelisted st d db = true) :
    is_blacklisted st d db = false := by
  unfold is_blacklisted
  rw [if_pos h]

/-- Witness for C6: the host `w.com`, whitelisted exactly, is not
blacklisted. -/
theorem whitelist_dominates_blacklist_witness :
    is_whitelisted exampleWhitelistState ("w.com".toList) [] = true ∧
    is_blacklisted exampleWhitelistState ("w.com".toList) [] = false :=
  ⟨by decide, whitelist_dominates_blacklist _ _ _ (by decide)⟩

/-- Claim C7 counterexample: for a host that is whitelisted,
`_add_to_blacklist` appends it to the in-memory blocked list, yet the
subsequent `is_blacklisted` lookup still returns false because the
whitelist takes precedence — so the claim fails for such hosts. -/
theorem add_blacklist_whitelisted_counterexample :
    (add_to_blacklist exampleWhitelistState ("w.com".toList) [] true).blocked
        = ["w.com".toList] ∧
    is_blacklisted (add_to_blacklist exampleWhitelistState ("w.com".toList) [] true)
        ("w.com".toList) [] = false := by
  constructor
  · decide
  · decide

/-- Claim C7 (amended): for every host that is NOT whitelisted, after
`_add_to_blacklist` returns, `is_blacklisted` returns true, regardless of
whether the append to the blacklist file succeeded or failed (the
in-memory insertion stands). -/
theorem add_blacklist_lookup (st : FilterState) (h : List Char) (hb : List Nat)
    (fileOk : Bool) (hw : is_whitelisted st h hb = false) :
    is_blacklisted (add_to_blacklist st h hb fileOk) h hb = true := by
  by_cases hbl : is_blacklisted st h hb = true
  · rw [add_to_blacklist_of_blacklisted st h hb fileOk hbl]
    exact hbl
  · rw [add_to_blacklist_of_not_blacklisted st h hb fileOk hbl]
    exact blacklisted_after_insert st h hb hw

/-- Witness for C7 (amended): adding `h.com` to an empty filter state
with a FAILING file append still makes the lookup return true. -/
theorem add_blacklist_lookup_witness :
    is_whitelisted emptyFilterState ("h.com".toList) [] = false ∧
    is_blacklisted (add_to_blacklist emptyFilterState ("h.com".toList) [] false)
        ("h.com".toList) [] = true :=
  ⟨by decide, add_blacklist_lookup emptyFilterState ("h.com".toList) [] false (by decide)⟩

/-- Claim C8 counterexample: for a whitelisted host, `_add_to_blacklist`
twice is NOT equivalent to once — the insertion guard `is_blacklisted`
stays false under whitelist precedence, so the host is appended twice and
ends up twice in the blocked list. -/
theorem add_blacklist_twice_counterexample :
    add_to_blacklist (add_to_blacklist exampleWhitelistState ("w.com".toList) [] true)
        ("w.com".toList) [] true
      ≠ add_to_blacklist exampleWhitelistState ("w.com".toList) [] true ∧
    (add_to_blacklist (add_to_blacklist exampleWhitelistState ("w.com".toList) [] true)
        ("w.com".toList) [] true).blocked.count ("w.com".toList) = 2 := by
  constructor
  · decide
  · decide

/-- Claim C8 (amended): for every host that is NOT whitelisted, calling
`_add_to_blacklist` twice leaves the in-memory filter state exactly as
calling it once (the second call's `is_blacklisted` guard sees the first
insertion), regardless of the file-append outcomes. -/
theorem add_blacklist_idempotent (st : FilterState) (h : List Char) (hb : List Nat)
    (fOk1 fOk2 : Bool) (hw : is_whitelisted st h hb = false) :
    add_to_blacklist (add_to_blacklist st h hb fOk1) h hb fOk2
      = add_to_blacklist st h hb fOk1 := by
  by_cases hbl : is_blacklisted st h hb = true
  · rw [add_to_blacklist_of_blacklisted st h hb fOk1 hbl,
      add_to_blacklist_of_blacklisted st h hb fOk2 hbl]
  · have h1 := add_to_blacklist_of_not_blacklisted st h hb fOk1 hbl
    have h2 : is_blacklisted (add_to_blacklist st h hb fOk1) h hb = true := by
      rw [h1]
      exact blacklisted_after_insert st h hb hw
    exact add_to_blacklist_of_blacklisted _ h hb fOk2 h2

/-- Witness for C8 (amended): double insertion of `h.com` into the empty
filter state, with differing file-append outcomes, equals single
insertion. -/
theorem add_blacklist_idempotent_witness :
    is_whitelisted emptyFilterState ("h.com".toList) [] = false ∧
    add_to_blacklist (add_to_blacklist emptyFilterState ("h.com".toList) [] true)
        ("h.com".toList) [] false
      = add_to_blacklist emptyFilterState ("h.com".toList) [] true :=
  ⟨by decide, add_blacklist_idempotent emptyFilterState ("h.com".toList) [] true false (by decide)⟩

/-- Claim C9 counterexample: with the single whitelist pattern
`*.example.com`, the host `badexample.com` — which is neither
`example.com` nor a subdomain of it, as the spec-side predicate
`spec_subdomain_match` records — is nonetheless matched, because the code
tests a bare `endswith("example.com")` without requiring a dot
boundary. -/
theorem wildcard_overmatch_counterexample :
    is_whitelisted exampleWildcardState ("badexample.com".toList) [] = true ∧
    spec_subdomain_match ("example.com".toList) ("badexample.com".toList) = false := by
  constructor
  · decide
  · decide

/-- Claim C9 (amended): a pattern `*.base` matches exactly the hosts that
have `base` as a plain string suffix — the base itself, every subdomain
`x.base`, but also any host such as `badbase` whose name merely ends in
the base's characters. -/
theorem wildcard_suffix_match (base host : List Char) :
    wildcardMatch ('*' :: '.' :: base) host = true ↔ ∃ pre, host = pre ++ base := by
  unfold wildcardMatch
  have ht : List.take 2 ('*' :: '.' :: base) = ['*', '.'] := rfl
  rw [if_pos ht]
  show (listEndsWith host base || host == base) = true ↔ _
  constructor
  · intro hm
    rw [Bool.or_eq_true] at hm
    rcases hm with hm | hm
    · exact (listEndsWith_iff host base).mp hm
    · exact ⟨[], by rw [List.nil_append]; exact eq_of_beq hm⟩
  · rintro ⟨pre, rfl⟩
    rw [Bool.or_eq_true]
    exact Or.inl ((listEndsWith_iff _ _).mpr ⟨pre, rfl⟩)

end PyProxy
